import Mathlib

/-!
Verification development for the pricing_uglycash pipeline.

Shallow embedding of the Python sources:
- `src/tier_engine.py` (qualifying tier, hysteresis tier assignment, rewards)
- `src/balance_rules_processor.py` (rule table, signed amounts, running balances)
- `src/monthly_user_segmentation.py` (dense monthly balance grid, segment buckets)
- `src/group_metrics_calculator.py` (guarded per-group average metrics)

Amounts and balances are modelled as rationals (`ℚ`). Timestamps are natural
numbers; the calendar period of a timestamp `t` is `t / 100` (a monotone
projection standing for `created_at.dt.to_period('M')`, i.e. timestamps encode
`month * 100 + day`). DataFrames are lists of structures; `groupby` state is
explicit recursion.
-/

namespace PricingUglycash

/-! ## Tier engine (`src/tier_engine.py`) -/

/-- The four tiers, `TIER_ORDER = ['tier1','tier2','tier3','tier4']`. -/
inductive Tier : Type
  | tier1 | tier2 | tier3 | tier4
deriving DecidableEq, Repr

/-- `TIER_ORDER` from `tier_engine.py` line 43. -/
def TIER_ORDER : List Tier := [Tier.tier1, Tier.tier2, Tier.tier3, Tier.tier4]

/-- `TIER_RANK` from `tier_engine.py` line 44: `tier1 -> 1 .. tier4 -> 4`. -/
def tierRank : Tier → ℕ
  | Tier.tier1 => 1
  | Tier.tier2 => 2
  | Tier.tier3 => 3
  | Tier.tier4 => 4

/-- `TIER_ORDER[new_rank - 1]` used at `tier_engine.py` line 110. -/
def tierOfRank (r : ℕ) : Tier := TIER_ORDER.getD (r - 1) Tier.tier1

/-- The threshold dictionary consumed by `_qualify_tier`
(keys `tierX_spend` / `tierX_balance`). -/
structure Thresholds : Type where
  tier2_spend : ℚ
  tier3_spend : ℚ
  tier4_spend : ℚ
  tier2_balance : ℚ
  tier3_balance : ℚ
  tier4_balance : ℚ
deriving DecidableEq, Repr

/-- `DEFAULT_THRESHOLDS` from `tier_engine.py` lines 17-26. -/
def DEFAULT_THRESHOLDS : Thresholds :=
  { tier2_spend := 300, tier3_spend := 500, tier4_spend := 1000
  , tier2_balance := 200, tier3_balance := 500, tier4_balance := 2000 }

/-- `_qualify_tier` from `tier_engine.py` lines 47-59: highest tier whose spend
OR balance threshold is met, evaluated from highest to lowest. -/
def qualifyTier (th : Thresholds) (spend bal : ℚ) : Tier :=
  if spend ≥ th.tier4_spend ∨ bal ≥ th.tier4_balance then Tier.tier4
  else if spend ≥ th.tier3_spend ∨ bal ≥ th.tier3_balance then Tier.tier3
  else if spend ≥ th.tier2_spend ∨ bal ≥ th.tier2_balance then Tier.tier2
  else Tier.tier1

/-- Specification-side predicate: tier `t`'s threshold is met by `(s, b)`
("the highest tier whose spend OR balance threshold is met"); `tier1` has no
threshold and is always met. -/
def tierMet (th : Thresholds) (s b : ℚ) : Tier → Prop
  | Tier.tier1 => True
  | Tier.tier2 => s ≥ th.tier2_spend ∨ b ≥ th.tier2_balance
  | Tier.tier3 => s ≥ th.tier3_spend ∨ b ≥ th.tier3_balance
  | Tier.tier4 => s ≥ th.tier4_spend ∨ b ≥ th.tier4_balance

instance (th : Thresholds) (s b : ℚ) (t : Tier) : Decidable (tierMet th s b t) := by
  cases t <;> simp only [tierMet] <;> infer_instance

/-- The per-month transition of `assign_tiers` (`tier_engine.py` lines 98-112):
given the previous assigned tier `prev` and this month's qualifying tier `q`,
upgrades are unlimited, downgrades are capped at one rank per month. -/
def tierStep (prev q : Tier) : Tier :=
  if tierRank q > tierRank prev then q
  else if tierRank prev - tierRank q > 1 then tierOfRank (tierRank prev - 1)
  else q

/-- The per-user loop of `assign_tiers` (`tier_engine.py` lines 89-115),
with the previous tier as explicit state (`None` before the first month).
Each input row is `(total_card_spending, end_balance)` and the rows are the
user's months in chronological order. -/
def assignTiersGo (th : Thresholds) : Option Tier → List (ℚ × ℚ) → List Tier
  | _, [] => []
  | none, _ :: rs => Tier.tier4 :: assignTiersGo th (some Tier.tier4) rs
  | some p, r :: rs =>
      let t := tierStep p (qualifyTier th r.1 r.2)
      t :: assignTiersGo th (some t) rs

/-- Assigned tier sequence for one user's chronologically ordered months
(the body of the `for user_id, grp in user_segments.groupby('user_id')` loop,
starting from `prev_tier = None`). -/
def assignTiersUser (th : Thresholds) (rows : List (ℚ × ℚ)) : List Tier :=
  assignTiersGo th none rows

/-- `DEFAULT_REWARD_PARAMS` from `tier_engine.py` lines 31-41, as the exact
rationals behind the decimal literals. -/
def DEFAULT_REWARD_PARAMS : List (String × ℚ) :=
  [ ("tier2_cashback_pct", mkRat 5 1000), ("tier3_cashback_pct", mkRat 10 1000)
  , ("tier4_cashback_pct", mkRat 20 1000)
  , ("tier2_yield_pct", mkRat 15 10000), ("tier3_yield_pct", mkRat 30 10000)
  , ("tier4_yield_pct", mkRat 60 10000) ]

/-- The Python string name of a tier, used to build the reward-parameter keys
`f"{tier}_cashback_pct"` / `f"{tier}_yield_pct"`. -/
def tierName : Tier → String
  | Tier.tier1 => "tier1"
  | Tier.tier2 => "tier2"
  | Tier.tier3 => "tier3"
  | Tier.tier4 => "tier4"

/-- `reward_params.get(key, 0.0)` — dictionary lookup with default `0`. -/
def rewardRate (params : List (String × ℚ)) (key : String) : ℚ :=
  (params.lookup key).getD 0

/-- Rounding to two decimal places, modelling the final `round(rewards_usd, 2)`
at `tier_engine.py` line 139. The Python code rounds the floating-point value;
here the exact rational is rounded (half away from the floor), which agrees
with the code on the inputs used in the theorems below. -/
def roundTo2 (x : ℚ) : ℚ := (round (x * 100) : ℤ) / 100

/-- The reward computation of `assign_tiers` (`tier_engine.py` lines 127-139):
`rewards_usd = round(cashback_pct * spend + yield_pct * min(balance, 1000), 2)`
where the percentages are looked up by tier name with default `0`. -/
def rewardUsd (params : List (String × ℚ)) (t : Tier) (spend bal : ℚ) : ℚ :=
  roundTo2 (rewardRate params (tierName t ++ "_cashback_pct") * spend
    + rewardRate params (tierName t ++ "_yield_pct") * min bal 1000)

/-! ## Balance rules processor (`src/balance_rules_processor.py`) -/

/-- One row of the rule CSV: `(activity_type, side, efecto)`. -/
structure RuleRow : Type where
  activity : String
  side : String
  eff : String
deriving DecidableEq, Repr

/-- The `rules_dict` built by `_load_rules` (`balance_rules_processor.py`
lines 38-41): every row is inserted, later rows overwriting earlier ones for
the same `(activity_type, side)` key. No validation of the effect symbol is
performed. -/
def rulesDict (rows : List RuleRow) : List ((String × String) × String) :=
  rows.map (fun r => ((r.activity, r.side), r.eff))

/-- `self.rules_dict.get(key, ...)`: dictionary lookup where the last inserted
value for a key wins (Python `dict` assignment semantics). -/
def lookupRule (d : List ((String × String) × String)) (a s : String) :
    Option String :=
  d.reverse.lookup (a, s)

/-- `get_effect` from `balance_rules_processor.py` lines 45-64:
`effect = rules_dict.get(key, '0')`, then `+ -> 1`, `- -> -1`, else `0`. -/
def getEffect (d : List ((String × String) × String)) (a s : String) : ℤ :=
  let eff := (lookupRule d a s).getD "0"
  if eff = "+" then 1 else if eff = "-" then -1 else 0

/-- A transaction row as consumed by `calculate_balances`. `time` is the
`created_at` timestamp. -/
structure RTx : Type where
  user : ℕ
  currency : String
  time : ℕ
  activity : String
  side : String
  status : String
  amount : ℚ
deriving DecidableEq, Repr

/-- `apply_rules_to_transaction` (`balance_rules_processor.py` lines 66-88):
`0.0` unless the row is settled, else `abs(amount) * effect`. -/
def signedAmount (d : List ((String × String) × String)) (t : RTx) : ℚ :=
  if t.status ≠ "settled" then 0
  else |t.amount| * (getEffect d t.activity t.side : ℚ)

/-- Lexicographic string order (by Unicode code point), as pandas sorts
string columns. -/
def strLt (a b : String) : Prop := a.data < b.data

instance : DecidableRel strLt := fun a b =>
  inferInstanceAs (Decidable (a.data < b.data))

/-- Sort key of `df.sort_values(['user_id', 'currency', 'created_at'])`:
lexicographic on (user, currency, created_at). -/
def txLe (a b : RTx) : Prop :=
  a.user < b.user
    ∨ (a.user = b.user ∧ (strLt a.currency b.currency
      ∨ (a.currency = b.currency ∧ a.time ≤ b.time)))

instance : DecidableRel txLe := fun _ _ => inferInstanceAs (Decidable (_ ∨ _))

/-- The sorted frame of `calculate_balances` (line 101); insertion sort is
stable, matching pandas' default stable sort on ties. -/
def sortTx (txs : List RTx) : List RTx := txs.insertionSort txLe

/-- The rows of the `(user_id, currency)` group, in frame order. -/
def partitionOf (txs : List RTx) (u : ℕ) (c : String) : List RTx :=
  txs.filter (fun t => t.user = u ∧ t.currency = c)

/-- Running sums starting from `acc` (inclusive of the current element). -/
def cumsumFrom (acc : ℚ) : List ℚ → List ℚ
  | [] => []
  | x :: xs => (acc + x) :: cumsumFrom (acc + x) xs

/-- The `balance` column of `calculate_balances` restricted to one
`(user_id, currency)` group: the groupwise cumulative sum of `signed_amount`
over the sorted frame (`balance_rules_processor.py` lines 100-107). -/
def partitionBalances (d : List ((String × String) × String)) (txs : List RTx)
    (u : ℕ) (c : String) : List ℚ :=
  cumsumFrom 0 ((partitionOf (sortTx txs) u c).map (signedAmount d))

/-! ## Monthly balance grid (`src/monthly_user_segmentation.py`) -/

/-- A balance-engine output row as consumed by `calculate_monthly_balances`:
transaction fields plus the running `balance` column. -/
structure BTx : Type where
  user : ℕ
  currency : String
  status : String
  time : ℕ
  balance : ℚ
deriving DecidableEq, Repr

/-- Calendar period of a timestamp (`created_at.dt.to_period('M')`):
timestamps encode `month * 100 + day`. -/
def monthOf (t : ℕ) : ℕ := t / 100

/-- The `eusd_df` restriction (`monthly_user_segmentation.py` lines 44-47):
reporting currency `eUSD` and settled status only. -/
def settledEusd (txs : List BTx) : List BTx :=
  txs.filter (fun t => t.currency = "eUSD" ∧ t.status = "settled")

/-- `eusd_df['user_id'].unique()` — the users appearing in the restricted
frame (as a duplicate-free list). -/
def usersOf (txs : List BTx) : List ℕ :=
  ((settledEusd txs).map (fun t => t.user)).dedup

/-- The month of each restricted row. -/
def monthsOf (txs : List BTx) : List ℕ :=
  (settledEusd txs).map (fun t => monthOf t.time)

/-- `eusd_df['year_month'].min()` (0 when the frame is empty; the Python code
would raise on an empty frame, a case excluded by the theorems below). -/
def minMonth (txs : List BTx) : ℕ := (monthsOf txs).min?.getD 0

/-- `eusd_df['year_month'].max()`. -/
def maxMonth (txs : List BTx) : ℕ := (monthsOf txs).max?.getD 0

/-- `pd.period_range(min, max, freq='M')` — all months from the global minimum
to the global maximum, inclusive. -/
def gridMonths (txs : List BTx) : List ℕ :=
  if settledEusd txs = [] then []
  else (List.range (maxMonth txs - minMonth txs + 1)).map (fun k => minMonth txs + k)

/-- Picks the chronologically last row (`group.sort_values('created_at').iloc[-1]`,
where the stable sort leaves the later input row last among equal timestamps). -/
def lastTx : List BTx → Option BTx
  | [] => none
  | t :: ts => some ((ts.foldl (fun b x => if x.time ≥ b.time then x else b) t))

/-- The balance of the last settled eUSD transaction of user `u` in month `m`
(`monthly_user_segmentation.py` lines 55-63), if any. -/
def lastBalanceInMonth (txs : List BTx) (u m : ℕ) : Option ℚ :=
  (lastTx ((settledEusd txs).filter (fun t => t.user = u ∧ monthOf t.time = m))).map
    (fun t => t.balance)

/-- The forward-filled end-of-month balance of user `u`, `k` months after the
global minimum month (`ffill().fillna(0)`, lines 84-89): a month with a last
transaction takes its balance, otherwise the previous month's value, and the
first month defaults to `0`. -/
def endBalAt (txs : List BTx) (u : ℕ) : ℕ → ℚ
  | 0 => (lastBalanceInMonth txs u (minMonth txs)).getD 0
  | k + 1 => (lastBalanceInMonth txs u (minMonth txs + (k + 1))).getD (endBalAt txs u k)

/-- The dense monthly balance grid (`monthly_user_segmentation.py` lines 68-95):
one row `(user_id, year_month, end_balance)` per user in the restricted frame
and per month in the global range. -/
def monthlyGrid (txs : List BTx) : List (ℕ × ℕ × ℚ) :=
  (usersOf txs).flatMap (fun u =>
    (gridMonths txs).map (fun m => (u, m, endBalAt txs u (m - minMonth txs))))

/-- The balance bucket assigned by
`pd.cut(end_balance, BALANCE_BINS, labels=BALANCE_LABELS, include_lowest=True)`
with `BALANCE_BINS = [0,10,100,500,1000,3000,10000,inf]`
(`monthly_user_segmentation.py` lines 17-18 and 157-162). `pd.cut` with the
default `right=True` forms right-closed intervals `(lo, hi]`, `include_lowest`
closes the first interval to `[0, 10]`, and a value outside every interval
(here: a negative balance) gets no bucket (`NaN`), modelled as `none`. -/
def balanceGroup (x : ℚ) : Option String :=
  if x < 0 then none
  else if x ≤ 10 then some "<10"
  else if x ≤ 100 then some "<100"
  else if x ≤ 500 then some "<500"
  else if x ≤ 1000 then some "<1k"
  else if x ≤ 3000 then some "<3k"
  else if x ≤ 10000 then some "<10k"
  else some ">10k"

/-- The spend bucket assigned by
`pd.cut(total_card_spending, CARD_SPEND_BINS, labels=CARD_SPEND_LABELS,
include_lowest=True)` with `CARD_SPEND_BINS = [0,1,10,100,300,500,1000,inf]`
(`monthly_user_segmentation.py` lines 21-22 and 165-170). -/
def spendGroup (x : ℚ) : Option String :=
  if x < 0 then none
  else if x ≤ 1 then some "<1"
  else if x ≤ 10 then some "<10"
  else if x ≤ 100 then some "<100"
  else if x ≤ 300 then some "<300"
  else if x ≤ 500 then some "<500"
  else if x ≤ 1000 then some "<1k"
  else some ">1k"

/-- Modelled from the spec's words for comparison (claim C4): balance buckets
as right-open intervals over `[0,10,100,500,1000,3000,10000,∞)` with every
value below the first breakpoint (negatives included) in the lowest bucket. -/
def specBalanceGroup (x : ℚ) : String :=
  if x < 10 then "<10"
  else if x < 100 then "<100"
  else if x < 500 then "<500"
  else if x < 1000 then "<1k"
  else if x < 3000 then "<3k"
  else if x < 10000 then "<10k"
  else ">10k"

/-- The composite segment key
`'B:' + str(balance_group) + '_S:' + str(spending_group)`
(`monthly_user_segmentation.py` lines 173-176); a missing bucket prints as
`"nan"`. -/
def segmentLabel (bal spend : ℚ) : String :=
  "B:" ++ (balanceGroup bal).getD "nan" ++ "_S:" ++ (spendGroup spend).getD "nan"

/-! ## Group metrics (`src/group_metrics_calculator.py`) -/

/-- The guarded transaction-average pattern of `calculate_group_metrics`
(lines 94, 107, 111): `abs(txs['amount'].mean()) if len(txs) else 0`. -/
def avgAbsOrZero (amounts : List ℚ) : ℚ :=
  if amounts.length ≠ 0 then |amounts.sum / (amounts.length : ℚ)| else 0

/-- The guarded per-user-average pattern of `calculate_group_metrics`
(lines 95, 108, 112): `total / unique_users if unique_users else 0`. -/
def perUserAvgOrZero (total : ℚ) (uniqueUsers : ℕ) : ℚ :=
  if uniqueUsers ≠ 0 then total / (uniqueUsers : ℚ) else 0

/-- Input rows of the `assign_tiers` unit test (user 1 of
`test_tier_engine.py`): spends `[0, 1200, 400]`, balances `[50, 100, 100]`. -/
def testRows : List (ℚ × ℚ) := [(0, 50), (1200, 100), (400, 100)]

/-- The rule table of the balance unit test: card debit subtracts, card
credit adds. -/
def testRules : List ((String × String) × String) :=
  rulesDict [⟨"card", "debit", "-"⟩, ⟨"card", "credit", "+"⟩]

/-- The three transactions of
`test_calculate_balances_and_identify_card_spending`
(users renamed to numbers: A = 7, B = 8). -/
def testTxs : List RTx :=
  [ ⟨7, "eUSD", 1, "card", "debit", "settled", 100⟩
  , ⟨7, "eUSD", 2, "card", "credit", "settled", 20⟩
  , ⟨8, "eUSD", 3, "bank_transfer", "credit", "settled", 200⟩ ]

/-- A rule CSV containing one malformed effect symbol `"x"`. -/
def malformedRows : List RuleRow := [⟨"foo", "bar", "x"⟩]

/-- Balance-engine output with one settled eUSD row (user 1) and one settled
row in another currency (user 2). -/
def gridTxs : List BTx :=
  [⟨1, "eUSD", "settled", 100, 5⟩, ⟨2, "BTC", "settled", 100, 7⟩]

/-- Balance-engine output for two users over two months: user 1 has two
settled eUSD transactions in month 1 and none in month 2; user 2 has one in
month 2 only. -/
def gridTxs2 : List BTx :=
  [ ⟨1, "eUSD", "settled", 105, 5⟩, ⟨1, "eUSD", "settled", 110, 9⟩
  , ⟨2, "eUSD", "settled", 203, 4⟩ ]

/-! ## Helper lemmas -/

theorem assignTiersGo_length (th : Thresholds) (rows : List (ℚ × ℚ)) :
    ∀ p : Option Tier, (assignTiersGo th p rows).length = rows.length := by
  induction rows with
  | nil => intro p; cases p <;> rfl
  | cons r rs ih => intro p; cases p <;> simp [assignTiersGo, ih]

theorem assignTiersGo_getD (th : Thresholds) (rows : List (ℚ × ℚ)) :
    ∀ (p : Tier) (i : ℕ), i < rows.length →
      (assignTiersGo th (some p) rows).getD i Tier.tier1 =
        tierStep
          (if i = 0 then p
           else (assignTiersGo th (some p) rows).getD (i - 1) Tier.tier1)
          (qualifyTier th (rows.getD i (0, 0)).1 (rows.getD i (0, 0)).2) := by
  induction rows with
  | nil => intro p i h; simp at h
  | cons r rs ih =>
    intro p i h
    cases i with
    | zero => simp [assignTiersGo]
    | succ j =>
      have hj : j < rs.length := by simpa using h
      simp only [assignTiersGo, List.getD_cons_succ]
      rw [ih (tierStep p (qualifyTier th r.1 r.2)) j hj]
      cases j with
      | zero => simp
      | succ k => simp

theorem tierRank_tierStep (p q : Tier) :
    tierRank (tierStep p q) = max (tierRank q) (tierRank p - 1) := by
  cases p <;> cases q <;> decide

theorem tierRank_le_four (t : Tier) : tierRank t ≤ 4 := by
  cases t <;> decide

end PricingUglycash

namespace PricingUglycash

/-! ## Claim theorems -/

/-- C1: for every user, over the chronologically ordered months, the first
month is assigned `tier4` unconditionally; every later month `i+1` with
previous assigned tier `prev` and qualifying tier `q` is assigned `q` when
`rank q > rank prev` (unlimited ascent), the tier at `rank prev - 1` when
`rank prev - rank q > 1`, and `q` otherwise (descent capped at one rank per
month). -/
theorem tier_assignment_hysteresis (th : Thresholds) (rows : List (ℚ × ℚ)) :
    (assignTiersUser th rows).length = rows.length
    ∧ (rows ≠ [] → (assignTiersUser th rows).getD 0 Tier.tier1 = Tier.tier4)
    ∧ (∀ i, i + 1 < rows.length →
        (assignTiersUser th rows).getD (i + 1) Tier.tier1 =
          (let prev := (assignTiersUser th rows).getD i Tier.tier1
           let q := qualifyTier th (rows.getD (i + 1) (0, 0)).1
             (rows.getD (i + 1) (0, 0)).2
           if tierRank q > tierRank prev then q
           else if tierRank prev - tierRank q > 1 then
             tierOfRank (tierRank prev - 1)
           else q)) := by
  refine ⟨assignTiersGo_length th rows none, ?_, ?_⟩
  · intro hne
    cases rows with
    | nil => exact absurd rfl hne
    | cons r rs => rfl
  · intro i hi
    cases rows with
    | nil => simp at hi
    | cons r rs =>
      have hi' : i < rs.length := by simpa using hi
      show (Tier.tier4 :: assignTiersGo th (some Tier.tier4) rs).getD (i + 1)
          Tier.tier1 = _
      rw [List.getD_cons_succ, assignTiersGo_getD th rs Tier.tier4 i hi']
      cases i with
      | zero => simp [tierStep, assignTiersUser, assignTiersGo]
      | succ k =>
        simp only [assignTiersUser, assignTiersGo, List.getD_cons_succ,
          Nat.succ_sub_one]
        rfl

/-- C1 witness: on the unit-test rows `[(0,50),(1200,100),(400,100)]` with
default thresholds, the hypotheses are dischargeable and the first month is
seeded at `tier4`; the third month follows the capped-descent step. -/
theorem tier_assignment_hysteresis_witness :
    testRows ≠ []
    ∧ (assignTiersUser DEFAULT_THRESHOLDS testRows).getD 0 Tier.tier1
        = Tier.tier4
    ∧ (assignTiersUser DEFAULT_THRESHOLDS testRows).getD 2 Tier.tier1 =
        (let prev := (assignTiersUser DEFAULT_THRESHOLDS testRows).getD 1
          Tier.tier1
         let q := qualifyTier DEFAULT_THRESHOLDS
           (testRows.getD 2 (0, 0)).1 (testRows.getD 2 (0, 0)).2
         if tierRank q > tierRank prev then q
         else if tierRank prev - tierRank q > 1 then
           tierOfRank (tierRank prev - 1)
         else q) :=
  ⟨by decide,
   (tier_assignment_hysteresis DEFAULT_THRESHOLDS testRows).2.1 (by decide),
   (tier_assignment_hysteresis DEFAULT_THRESHOLDS testRows).2.2 1 (by decide)⟩

/-- C2: the qualifying tier is the highest tier whose spend OR balance
threshold is met (inclusive comparisons, checked from `tier4` downward,
`tier1` as fallback), and the default thresholds are spend 300/500/1000 and
balance 200/500/2000 for `tier2`/`tier3`/`tier4`. -/
theorem qualifying_tier_highest_met (th : Thresholds) (s b : ℚ) :
    tierMet th s b (qualifyTier th s b)
    ∧ (∀ t, tierRank (qualifyTier th s b) < tierRank t → ¬ tierMet th s b t)
    ∧ DEFAULT_THRESHOLDS =
        { tier2_spend := 300, tier3_spend := 500, tier4_spend := 1000
        , tier2_balance := 200, tier3_balance := 500, tier4_balance := 2000 } := by
  refine ⟨?_, ?_, rfl⟩ <;> unfold qualifyTier <;> split_ifs with h4 h3 h2
  · exact h4
  · exact h3
  · exact h2
  · trivial
  · intro t ht; cases t <;> simp [tierRank] at ht
  · intro t ht
    cases t with
    | tier1 => simp [tierRank] at ht
    | tier2 => simp [tierRank] at ht
    | tier3 => simp [tierRank] at ht
    | tier4 => exact h4
  · intro t ht
    cases t with
    | tier1 => simp [tierRank] at ht
    | tier2 => simp [tierRank] at ht
    | tier3 => exact h3
    | tier4 => exact h4
  · intro t ht
    cases t with
    | tier1 => simp [tierRank] at ht
    | tier2 => exact h2
    | tier3 => exact h3
    | tier4 => exact h4

/-- C2 witness: at spend 0 and balance 0 under the default thresholds, no
tier above the qualifying tier (`tier1`) meets its threshold. -/
theorem qualifying_tier_highest_met_witness :
    ¬ tierMet DEFAULT_THRESHOLDS 0 0 Tier.tier3 :=
  (qualifying_tier_highest_met DEFAULT_THRESHOLDS 0 0).2.1 Tier.tier3 (by decide)

/-- C10: the assigned tier never ranks below the month's qualifying tier;
the first month's rank is 4 (the maximum), and every later month's assigned
rank equals `max (qualifying rank) (previous assigned rank - 1)`. -/
theorem assigned_rank_dominates_qualifying (th : Thresholds)
    (rows : List (ℚ × ℚ)) :
    (∀ i, i < rows.length →
      tierRank (qualifyTier th (rows.getD i (0, 0)).1 (rows.getD i (0, 0)).2)
        ≤ tierRank ((assignTiersUser th rows).getD i Tier.tier1))
    ∧ (rows ≠ [] →
        tierRank ((assignTiersUser th rows).getD 0 Tier.tier1) = 4)
    ∧ (∀ i, i + 1 < rows.length →
        tierRank ((assignTiersUser th rows).getD (i + 1) Tier.tier1) =
          max (tierRank (qualifyTier th (rows.getD (i + 1) (0, 0)).1
                (rows.getD (i + 1) (0, 0)).2))
            (tierRank ((assignTiersUser th rows).getD i Tier.tier1) - 1)) := by
  have hfirst : rows ≠ [] →
      tierRank ((assignTiersUser th rows).getD 0 Tier.tier1) = 4 := by
    intro hne
    cases rows with
    | nil => exact absurd rfl hne
    | cons r rs => rfl
  have hstep : ∀ i, i + 1 < rows.length →
      tierRank ((assignTiersUser th rows).getD (i + 1) Tier.tier1) =
        max (tierRank (qualifyTier th (rows.getD (i + 1) (0, 0)).1
              (rows.getD (i + 1) (0, 0)).2))
          (tierRank ((assignTiersUser th rows).getD i Tier.tier1) - 1) := by
    intro i hi
    cases rows with
    | nil => simp at hi
    | cons r rs =>
      have hi' : i < rs.length := by simpa using hi
      show tierRank ((Tier.tier4 :: assignTiersGo th (some Tier.tier4) rs).getD
          (i + 1) Tier.tier1) = _
      rw [List.getD_cons_succ, assignTiersGo_getD th rs Tier.tier4 i hi',
        tierRank_tierStep]
      cases i with
      | zero => rfl
      | succ k =>
        simp only [assignTiersUser, assignTiersGo, List.getD_cons_succ,
          Nat.succ_sub_one]
        rfl
  refine ⟨?_, hfirst, hstep⟩
  intro i hi
  cases i with
  | zero =>
    have hne : rows ≠ [] := by
      intro h; rw [h] at hi; simp at hi
    rw [hfirst hne]
    exact tierRank_le_four _
  | succ j =>
    rw [hstep j hi]
    exact le_max_left _ _

/-- C10 witness: on the unit-test rows, the third month's assigned rank is
`max` of its qualifying rank and the previous rank minus one. -/
theorem assigned_rank_dominates_qualifying_witness :
    tierRank (qualifyTier DEFAULT_THRESHOLDS (testRows.getD 2 (0, 0)).1
        (testRows.getD 2 (0, 0)).2)
      ≤ tierRank ((assignTiersUser DEFAULT_THRESHOLDS testRows).getD 2
        Tier.tier1) :=
  (assigned_rank_dominates_qualifying DEFAULT_THRESHOLDS testRows).1 2
    (by decide)

theorem lookup_eq_some_mem {α β : Type} [BEq α] [LawfulBEq α]
    (l : List (α × β)) (k : α) (v : β) (h : l.lookup k = some v) :
    (k, v) ∈ l := by
  induction l with
  | nil => simp [List.lookup] at h
  | cons p t ih =>
    obtain ⟨pk, pv⟩ := p
    rw [List.lookup_cons] at h
    by_cases hb : (k == pk) = true
    · rw [hb] at h
      have hk : k = pk := eq_of_beq hb
      have hv : pv = v := by simpa using h
      subst hk; subst hv
      exact List.mem_cons_self _ _
    · rw [Bool.not_eq_true] at hb
      rw [hb] at h
      exact List.mem_cons_of_mem _ (ih h)

theorem lookup_ne_none_of_mem {α β : Type} [BEq α] [LawfulBEq α]
    (l : List (α × β)) (k : α) (v : β) (h : (k, v) ∈ l) :
    l.lookup k ≠ none := by
  induction l with
  | nil => simp at h
  | cons p t ih =>
    obtain ⟨pk, pv⟩ := p
    rw [List.mem_cons] at h
    rw [List.lookup_cons]
    rcases h with h | h
    · obtain ⟨h1, h2⟩ := Prod.mk.injEq k v pk pv ▸ h
      subst h1
      simp
    · by_cases hb : (k == pk) = true
      · rw [hb]; simp
      · rw [Bool.not_eq_true] at hb
        rw [hb]
        exact ih h

theorem cumsumFrom_cons_getLast? (l : List ℚ) :
    ∀ acc x : ℚ,
      (cumsumFrom acc (x :: l)).getLast? = some (acc + (x :: l).sum) := by
  induction l with
  | nil => intro acc x; simp [cumsumFrom]
  | cons y ys ih =>
    intro acc x
    rw [show cumsumFrom acc (x :: y :: ys)
        = (acc + x) :: (acc + x + y) :: cumsumFrom (acc + x + y) ys from rfl]
    rw [List.getLast?_cons_cons]
    rw [show (acc + x + y) :: cumsumFrom (acc + x + y) ys
        = cumsumFrom (acc + x) (y :: ys) from rfl]
    rw [ih (acc + x) y]
    simp [add_assoc]

theorem roundTo2_nonneg (x : ℚ) (hx : 0 ≤ x) : 0 ≤ roundTo2 x := by
  unfold roundTo2
  have h0 : (0:ℚ) ≤ x * 100 := by nlinarith
  have h1 : (0:ℤ) ≤ round (x * 100) := by
    rw [round_eq]
    exact Int.floor_nonneg.mpr (by linarith)
  have h2 : ((0:ℤ) : ℚ) ≤ ((round (x * 100) : ℤ) : ℚ) := Int.cast_le.mpr h1
  exact div_nonneg (by simpa using h2) (by norm_num)

theorem rewardRate_nonneg (params : List (String × ℚ))
    (hp : ∀ kv ∈ params, 0 ≤ kv.2) (key : String) :
    0 ≤ rewardRate params key := by
  unfold rewardRate
  cases hl : params.lookup key with
  | none => simp
  | some v =>
    have hv := hp (key, v) (lookup_eq_some_mem params key v hl)
    simpa using hv

/-- C6: for every rule table and every `(activity_type, side)` pair,
`get_effect` returns exactly one of `{-1, 0, 1}` and never fails, and every
pair absent from the loaded table resolves to `0`. -/
theorem rule_lookup_total (rows : List RuleRow) (a s : String) :
    (getEffect (rulesDict rows) a s = -1 ∨ getEffect (rulesDict rows) a s = 0
      ∨ getEffect (rulesDict rows) a s = 1)
    ∧ (lookupRule (rulesDict rows) a s = none →
        getEffect (rulesDict rows) a s = 0) := by
  constructor
  · simp only [getEffect]
    split_ifs
    · exact Or.inr (Or.inr rfl)
    · exact Or.inl rfl
    · exact Or.inr (Or.inl rfl)
  · intro h
    simp [getEffect, h]

/-- C6 witness: the unit test's unknown pair (`'foo'`, `'bar'`) resolves to
effect `0` under the test rule table. -/
theorem rule_lookup_total_witness : getEffect testRules "foo" "bar" = 0 :=
  (rule_lookup_total [⟨"card", "debit", "-"⟩, ⟨"card", "credit", "+"⟩]
    "foo" "bar").2 (by rfl)

/-- C8 counterexample: loading a rule table whose only row carries the
malformed effect symbol `"x"` raises nothing — the row is stored verbatim in
the rule dictionary, and its lookup silently resolves to effect `0`. The
claimed load-time `ValidationError` does not exist in `_load_rules`. -/
theorem rule_load_accepts_malformed :
    rulesDict malformedRows = [(("foo", "bar"), "x")]
    ∧ getEffect (rulesDict malformedRows) "foo" "bar" = 0 :=
  ⟨rfl, rfl⟩

/-- C8 amended: rule loading performs no validation of effect symbols —
every row of the backing table is stored regardless of its symbol, and at
lookup time any stored symbol other than `"+"` and `"-"` (malformed ones
included) resolves to effect `0`. -/
theorem rule_load_no_validation (rows : List RuleRow) (r : RuleRow)
    (hr : r ∈ rows) :
    lookupRule (rulesDict rows) r.activity r.side ≠ none
    ∧ (∀ a s sym, lookupRule (rulesDict rows) a s = some sym →
        sym ≠ "+" → sym ≠ "-" → getEffect (rulesDict rows) a s = 0) := by
  constructor
  · unfold lookupRule
    refine lookup_ne_none_of_mem _ _ r.eff ?_
    rw [List.mem_reverse]
    exact List.mem_map_of_mem (fun q => ((q.activity, q.side), q.eff)) hr
  · intro a s sym hl h1 h2
    simp only [getEffect, hl, Option.getD_some]
    rw [if_neg h1, if_neg h2]

/-- C8 amended witness: the malformed row `('foo', 'bar', 'x')` is present
after loading and resolves to effect `0`. -/
theorem rule_load_no_validation_witness :
    getEffect (rulesDict malformedRows) "foo" "bar" = 0 :=
  (rule_load_no_validation malformedRows ⟨"foo", "bar", "x"⟩ (by decide)).2
    "foo" "bar" "x" (by rfl) (by decide) (by decide)

/-- C5: for every `(user_id, currency)` partition, the final running balance
equals the sum of the partition's signed amounts; that total is invariant
under any permutation of the input rows; and each row's signed amount is
`effect * |amount|` when settled and `0` otherwise. -/
theorem balance_partition_invariant (d : List ((String × String) × String))
    (txs : List RTx) (u : ℕ) (c : String) :
    (partitionOf txs u c ≠ [] →
      (partitionBalances d txs u c).getLast? =
        some (((partitionOf txs u c).map (signedAmount d)).sum))
    ∧ (∀ txs₂, txs.Perm txs₂ →
        ((partitionOf txs₂ u c).map (signedAmount d)).sum =
          ((partitionOf txs u c).map (signedAmount d)).sum)
    ∧ (∀ t, signedAmount d t =
        if t.status = "settled" then
          |t.amount| * (getEffect d t.activity t.side : ℚ)
        else 0) := by
  have hsort : (sortTx txs).Perm txs := List.perm_insertionSort txLe txs
  have hpart : (partitionOf (sortTx txs) u c).Perm (partitionOf txs u c) :=
    hsort.filter _
  have hsum : ((partitionOf (sortTx txs) u c).map (signedAmount d)).sum =
      ((partitionOf txs u c).map (signedAmount d)).sum :=
    (hpart.map _).sum_eq
  refine ⟨?_, ?_, ?_⟩
  · intro hne
    have hne2 : partitionOf (sortTx txs) u c ≠ [] := by
      intro h
      apply hne
      have := hpart.length_eq
      rw [h] at this
      exact List.length_eq_zero.mp this.symm
    unfold partitionBalances
    cases hL : (partitionOf (sortTx txs) u c).map (signedAmount d) with
    | nil => exact absurd (List.map_eq_nil_iff.mp hL) hne2
    | cons x xs =>
      rw [cumsumFrom_cons_getLast? xs 0 x, zero_add, ← hL, hsum]
  · intro txs₂ hp
    exact ((hp.filter _).map _).sum_eq.symm
  · intro t
    by_cases h : t.status = "settled" <;> simp [signedAmount, h]

/-- C5 witness: on the unit-test transactions, user 7's eUSD partition is
nonempty and its final balance is the partition's signed-amount total. -/
theorem balance_partition_invariant_witness :
    (partitionBalances testRules testTxs 7 "eUSD").getLast? =
      some (((partitionOf testTxs 7 "eUSD").map (signedAmount testRules)).sum) :=
  (balance_partition_invariant testRules testTxs 7 "eUSD").1 (by decide)

/-- C9: the per-user-average and per-transaction-average metrics of the
group metrics computation are total: a zero user count or an empty
transaction list yields `0` instead of a division-by-zero failure, and the
guards leave nonempty inputs untouched. -/
theorem empty_group_average_zero (total : ℚ) (amounts : List ℚ) (n : ℕ) :
    perUserAvgOrZero total 0 = 0
    ∧ avgAbsOrZero [] = 0
    ∧ (n ≠ 0 → perUserAvgOrZero total n = total / (n : ℚ))
    ∧ (amounts ≠ [] →
        avgAbsOrZero amounts = |amounts.sum / (amounts.length : ℚ)|) := by
  refine ⟨rfl, rfl, ?_, ?_⟩
  · intro h; simp [perUserAvgOrZero, h]
  · intro h
    have hlen : amounts.length ≠ 0 := fun hl => h (List.length_eq_zero.mp hl)
    simp [avgAbsOrZero, hlen]

/-- C9 witness: a group of 3 users with total 5 averages to `5/3`, obtained
through the guarded division. -/
theorem empty_group_average_zero_witness :
    perUserAvgOrZero 5 3 = 5 / ((3 : ℕ) : ℚ) :=
  (empty_group_average_zero 5 [] 3).2.2.1 (by decide)

/-- C7 counterexample: with the default reward parameters, tier2, spend 1
and balance 0, the stored reward is `round(0.005, 2) = 0.01`, not the
formula value `0.005` — the code rounds the formula to two decimals before
storing it. -/
theorem reward_equals_formula_counterexample :
    rewardUsd DEFAULT_REWARD_PARAMS Tier.tier2 1 0 = 1 / 100
    ∧ rewardRate DEFAULT_REWARD_PARAMS (tierName Tier.tier2 ++ "_cashback_pct")
          * 1
        + rewardRate DEFAULT_REWARD_PARAMS (tierName Tier.tier2 ++ "_yield_pct")
          * min 0 1000 = 1 / 200
    ∧ (1 / 100 : ℚ) ≠ 1 / 200 := by
  have h1 : rewardRate DEFAULT_REWARD_PARAMS
      (tierName Tier.tier2 ++ "_cashback_pct") = mkRat 5 1000 := by rfl
  have h2 : rewardRate DEFAULT_REWARD_PARAMS
      (tierName Tier.tier2 ++ "_yield_pct") = mkRat 15 10000 := by rfl
  have hmin : min (0 : ℚ) 1000 = 0 := min_eq_left (by norm_num)
  refine ⟨?_, ?_, by norm_num⟩
  · rw [show rewardUsd DEFAULT_REWARD_PARAMS Tier.tier2 1 0
        = roundTo2 (rewardRate DEFAULT_REWARD_PARAMS
            (tierName Tier.tier2 ++ "_cashback_pct") * 1
          + rewardRate DEFAULT_REWARD_PARAMS
            (tierName Tier.tier2 ++ "_yield_pct") * min 0 1000) from rfl]
    rw [h1, h2, hmin, Rat.mkRat_eq_div, Rat.mkRat_eq_div]
    norm_num [roundTo2, round_eq]
  · rw [h1, h2, hmin, Rat.mkRat_eq_div, Rat.mkRat_eq_div]
    norm_num

/-- C7 amended: the stored reward equals the formula
`cashback_pct[tier] * spend + yield_pct[tier] * min(balance, 1000)` rounded
to two decimal places; a tier with no configured rates contributes zero
rates (`tier1` yields reward `0` under the defaults); and for nonnegative
rates, spend and balance the reward is nonnegative. -/
theorem reward_formula_rounded (params : List (String × ℚ)) (t : Tier)
    (spend bal : ℚ) :
    rewardUsd params t spend bal =
      roundTo2 (rewardRate params (tierName t ++ "_cashback_pct") * spend
        + rewardRate params (tierName t ++ "_yield_pct") * min bal 1000)
    ∧ (∀ key, params.lookup key = none → rewardRate params key = 0)
    ∧ (∀ sp b2 : ℚ, rewardUsd DEFAULT_REWARD_PARAMS Tier.tier1 sp b2 = 0)
    ∧ ((∀ kv ∈ params, 0 ≤ kv.2) → 0 ≤ spend → 0 ≤ bal →
        0 ≤ rewardUsd params t spend bal) := by
  refine ⟨rfl, ?_, ?_, ?_⟩
  · intro key h; simp [rewardRate, h]
  · intro sp b2
    rw [show rewardUsd DEFAULT_REWARD_PARAMS Tier.tier1 sp b2
        = roundTo2 (rewardRate DEFAULT_REWARD_PARAMS "tier1_cashback_pct" * sp
          + rewardRate DEFAULT_REWARD_PARAMS "tier1_yield_pct" * min b2 1000)
        from rfl]
    rw [show rewardRate DEFAULT_REWARD_PARAMS "tier1_cashback_pct" = 0 from rfl]
    rw [show rewardRate DEFAULT_REWARD_PARAMS "tier1_yield_pct" = 0 from rfl]
    norm_num [roundTo2, round_eq]
  · intro hp hs hb
    unfold rewardUsd
    apply roundTo2_nonneg
    have hcb := rewardRate_nonneg params hp (tierName t ++ "_cashback_pct")
    have hyl := rewardRate_nonneg params hp (tierName t ++ "_yield_pct")
    have hmin : 0 ≤ min bal 1000 := le_min hb (by norm_num)
    have := mul_nonneg hcb hs
    have := mul_nonneg hyl hmin
    linarith

/-- C7 amended witness: with the default parameters at tier3, spend 100,
balance 2000, the reward is nonnegative. -/
theorem reward_formula_rounded_witness :
    0 ≤ rewardUsd DEFAULT_REWARD_PARAMS Tier.tier3 100 2000 :=
  (reward_formula_rounded DEFAULT_REWARD_PARAMS Tier.tier3 100 2000).2.2.2
    (by decide) (by decide) (by decide)

/-- C4 counterexample: the code's buckets are not the claimed right-open
intervals and negatives do not fall in the lowest bucket — at balance 10 the
code assigns `<10` while the right-open reading assigns `<100`, and at
balance -1 the code assigns no bucket (`NaN`, printed `"nan"` in the segment
key) while the claim demands the lowest bucket. -/
theorem segment_buckets_counterexample :
    balanceGroup 10 = some "<10"
    ∧ specBalanceGroup 10 = "<100"
    ∧ balanceGroup (-1) = none
    ∧ specBalanceGroup (-1) = "<10"
    ∧ segmentLabel (-1) 0 = "B:nan_S:<1" :=
  ⟨by decide, rfl, by decide, rfl, rfl⟩

set_option maxHeartbeats 2000000 in
/-- C4 amended: the segment classification is total on nonnegative inputs
with each value in exactly one bucket, but the buckets are left-open
right-closed intervals (`pd.cut` with `right=True`), the lowest bucket being
closed at 0 by `include_lowest`; a negative value falls in no bucket
(`NaN`). Balance buckets: `[0,10], (10,100], (100,500], (500,1000],
(1000,3000], (3000,10000], (10000,∞)`; spend buckets: `[0,1], (1,10],
(10,100], (100,300], (300,500], (500,1000], (1000,∞)`. -/
theorem segment_buckets_right_closed (x : ℚ) :
    (balanceGroup x = none ↔ x < 0)
    ∧ (0 ≤ x → (balanceGroup x).isSome)
    ∧ (balanceGroup x = some "<10" ↔ 0 ≤ x ∧ x ≤ 10)
    ∧ (balanceGroup x = some "<100" ↔ 10 < x ∧ x ≤ 100)
    ∧ (balanceGroup x = some "<500" ↔ 100 < x ∧ x ≤ 500)
    ∧ (balanceGroup x = some "<1k" ↔ 500 < x ∧ x ≤ 1000)
    ∧ (balanceGroup x = some "<3k" ↔ 1000 < x ∧ x ≤ 3000)
    ∧ (balanceGroup x = some "<10k" ↔ 3000 < x ∧ x ≤ 10000)
    ∧ (balanceGroup x = some ">10k" ↔ 10000 < x)
    ∧ (spendGroup x = none ↔ x < 0)
    ∧ (0 ≤ x → (spendGroup x).isSome)
    ∧ (spendGroup x = some "<1" ↔ 0 ≤ x ∧ x ≤ 1)
    ∧ (spendGroup x = some "<10" ↔ 1 < x ∧ x ≤ 10)
    ∧ (spendGroup x = some "<100" ↔ 10 < x ∧ x ≤ 100)
    ∧ (spendGroup x = some "<300" ↔ 100 < x ∧ x ≤ 300)
    ∧ (spendGroup x = some "<500" ↔ 300 < x ∧ x ≤ 500)
    ∧ (spendGroup x = some "<1k" ↔ 500 < x ∧ x ≤ 1000)
    ∧ (spendGroup x = some ">1k" ↔ 1000 < x) := by
  refine ⟨?_, ?_, ?_, ?_, ?_, ?_, ?_, ?_, ?_, ?_, ?_, ?_, ?_, ?_, ?_, ?_,
    ?_, ?_⟩ <;> intros <;> simp only [balanceGroup, spendGroup] <;>
    split_ifs <;> simp_all <;> try constructor
  all_goals first
    | (intro h; linarith)
    | (constructor <;> linarith)
    | linarith

/-- C4 amended witness: the boundary value 10 lands in the closed upper end
of the lowest balance bucket. -/
theorem segment_buckets_right_closed_witness :
    balanceGroup 10 = some "<10" ∧ (balanceGroup 0).isSome :=
  ⟨(segment_buckets_right_closed 10).2.2.1.mpr (by norm_num),
   (segment_buckets_right_closed 0).2.1 (by norm_num)⟩

theorem countP_block_eq_count (months : List ℕ) (u : ℕ) (v : ℕ → ℚ) (m : ℕ) :
    (months.map (fun m2 => (u, m2, v m2))).countP
      (fun r => decide (r.1 = u ∧ r.2.1 = m)) = months.count m := by
  induction months with
  | nil => rfl
  | cons a t ih =>
    simp only [List.map_cons, List.countP_cons, ih, List.count_cons]
    by_cases h : a = m
    · simp [h]
    · simp [h]

theorem countP_block_ne (months : List ℕ) (w u : ℕ) (v : ℕ → ℚ) (m : ℕ)
    (h : w ≠ u) :
    (months.map (fun m2 => (w, m2, v m2))).countP
      (fun r => decide (r.1 = u ∧ r.2.1 = m)) = 0 := by
  rw [List.countP_eq_zero]
  intro r hr
  obtain ⟨m2, hm2, rfl⟩ := List.mem_map.mp hr
  simp [h]

theorem sum_map_eq_one {α : Type} [DecidableEq α] (l : List α) (u : α)
    (f : α → ℕ) (hn : l.Nodup) (hu : u ∈ l) (hfu : f u = 1)
    (hf0 : ∀ w ∈ l, w ≠ u → f w = 0) :
    (l.map f).sum = 1 := by
  induction l with
  | nil => simp at hu
  | cons a t ih =>
    rw [List.nodup_cons] at hn
    rw [List.map_cons, List.sum_cons]
    rcases List.mem_cons.mp hu with rfl | hmem
    · have ht : (t.map f).sum = 0 := by
        apply List.sum_eq_zero
        intro x hx
        obtain ⟨w, hw, rfl⟩ := List.mem_map.mp hx
        exact hf0 w (List.mem_cons_of_mem _ hw) (fun he => hn.1 (he ▸ hw))
      rw [hfu, ht]
    · have ha : f a = 0 :=
        hf0 a (List.mem_cons_self _ _) (fun he => hn.1 (by rw [he]; exact hmem))
      rw [ha,
        ih hn.2 hmem (fun w hw hwu => hf0 w (List.mem_cons_of_mem _ hw) hwu)]

theorem nodup_gridMonths (txs : List BTx) : (gridMonths txs).Nodup := by
  unfold gridMonths
  split_ifs
  · exact List.nodup_nil
  · exact (List.nodup_range _).map (fun k1 k2 h => by omega)

theorem mem_gridMonths (txs : List BTx) (m : ℕ) (hne : settledEusd txs ≠ [])
    (h1 : minMonth txs ≤ m) (h2 : m ≤ maxMonth txs) :
    m ∈ gridMonths txs := by
  rw [gridMonths, if_neg hne]
  refine List.mem_map.mpr ⟨m - minMonth txs, ?_, by omega⟩
  rw [List.mem_range]
  omega

theorem settled_ne_of_mem_users (txs : List BTx) (u : ℕ)
    (hu : u ∈ usersOf txs) : settledEusd txs ≠ [] := by
  unfold usersOf at hu
  rw [List.mem_dedup] at hu
  obtain ⟨t, ht, rfl⟩ := List.mem_map.mp hu
  intro h
  rw [h] at ht
  simp at ht

/-- C3 counterexample: user 2 appears in the balance engine output (with a
settled non-eUSD transaction) but the monthly grid built from this output
contains no row for user 2 at all — the grid only covers users with at
least one settled eUSD transaction, not every user of the balance engine
output. -/
theorem monthly_grid_missing_user_counterexample :
    2 ∈ gridTxs.map (fun t => t.user)
    ∧ monthlyGrid gridTxs = [(1, 1, 5)]
    ∧ (∀ r ∈ monthlyGrid gridTxs, r.1 ≠ 2) := by
  refine ⟨by decide, by decide, by decide⟩

/-- C3 amended: for every user with at least one settled reporting-currency
(eUSD) transaction and every calendar month from the global minimum to the
global maximum month inclusive, the monthly grid contains exactly one row;
its `end_balance` equals the balance of the chronologically last settled
eUSD transaction of that month if one exists, otherwise the previous
month's value, and `0` at the first month when no transaction exists. -/
theorem monthly_grid_dense_ffill (txs : List BTx) (u m : ℕ)
    (hu : u ∈ usersOf txs) (h1 : minMonth txs ≤ m) (h2 : m ≤ maxMonth txs) :
    ((monthlyGrid txs).countP (fun r => decide (r.1 = u ∧ r.2.1 = m)) = 1)
    ∧ (u, m, endBalAt txs u (m - minMonth txs)) ∈ monthlyGrid txs
    ∧ (∀ b, lastBalanceInMonth txs u m = some b →
        endBalAt txs u (m - minMonth txs) = b)
    ∧ (lastBalanceInMonth txs u m = none → m = minMonth txs →
        endBalAt txs u (m - minMonth txs) = 0)
    ∧ (lastBalanceInMonth txs u m = none → minMonth txs < m →
        endBalAt txs u (m - minMonth txs) =
          endBalAt txs u (m - 1 - minMonth txs)) := by
  have hne := settled_ne_of_mem_users txs u hu
  refine ⟨?_, ?_, ?_, ?_, ?_⟩
  · unfold monthlyGrid
    rw [List.countP_flatMap]
    apply sum_map_eq_one (usersOf txs) u _ (List.nodup_dedup _) hu
    · show ((gridMonths txs).map
          (fun m2 => (u, m2, endBalAt txs u (m2 - minMonth txs)))).countP
          (fun r => decide (r.1 = u ∧ r.2.1 = m)) = 1
      rw [countP_block_eq_count]
      exact List.count_eq_one_of_mem (nodup_gridMonths txs)
        (mem_gridMonths txs m hne h1 h2)
    · intro w hw hwu
      show ((gridMonths txs).map
          (fun m2 => (w, m2, endBalAt txs w (m2 - minMonth txs)))).countP
          (fun r => decide (r.1 = u ∧ r.2.1 = m)) = 0
      exact countP_block_ne _ w u _ m hwu
  · refine List.mem_flatMap.mpr ⟨u, hu, ?_⟩
    exact List.mem_map.mpr ⟨m, mem_gridMonths txs m hne h1 h2, rfl⟩
  · intro b hb
    cases hk : m - minMonth txs with
    | zero =>
      have hm : minMonth txs = m := by omega
      show (lastBalanceInMonth txs u (minMonth txs)).getD 0 = b
      rw [hm, hb]
      rfl
    | succ k =>
      have hm : minMonth txs + (k + 1) = m := by omega
      show (lastBalanceInMonth txs u (minMonth txs + (k + 1))).getD
        (endBalAt txs u k) = b
      rw [hm, hb]
      rfl
  · intro hnone hmin
    have hk : m - minMonth txs = 0 := by omega
    rw [hk]
    show (lastBalanceInMonth txs u (minMonth txs)).getD 0 = 0
    rw [← hmin, hnone]
    rfl
  · intro hnone hlt
    have hk : m - minMonth txs = (m - 1 - minMonth txs) + 1 := by omega
    rw [hk]
    show (lastBalanceInMonth txs u
        (minMonth txs + ((m - 1 - minMonth txs) + 1))).getD
      (endBalAt txs u (m - 1 - minMonth txs)) = _
    rw [show minMonth txs + ((m - 1 - minMonth txs) + 1) = m from by omega,
      hnone]
    rfl

/-- C3 amended witness: in a two-user, two-month output the grid holds
exactly one row for user 1 in month 2, whose balance forward-fills month
1's closing balance. -/
theorem monthly_grid_dense_ffill_witness :
    ((monthlyGrid gridTxs2).countP
      (fun r => decide (r.1 = 1 ∧ r.2.1 = 2)) = 1)
    ∧ (1, 2, endBalAt gridTxs2 1 (2 - minMonth gridTxs2)) ∈ monthlyGrid gridTxs2 :=
  ⟨(monthly_grid_dense_ffill gridTxs2 1 2 (by decide) (by decide)
      (by decide)).1,
   (monthly_grid_dense_ffill gridTxs2 1 2 (by decide) (by decide)
      (by decide)).2.1⟩

end PricingUglycash
